import Mathlib

/-!
Verification of the `obs_base` fragment: the `ExposureIdInfo` value struct
(`python/lsst/obs/base/exposureIdInfo.py`) and the `bboxFromIraf` parser
(`python/lsst/obs/base/utils.py`), shallowly embedded in Lean 4.

Python integers are unbounded, so they are modelled as `Int`; `int.bit_length`
is modelled on `Nat` via a fuel-based structural recursion (with a proved
characterisation).  Python exceptions are modelled by `Except PyError`.
-/

/-- Errors raised by the Python code: `RuntimeError` (the generic
runtime-failure kind the spec calls `InvalidArgument`) and `ValueError`
(raised by `int()` on a malformed literal). -/
inductive PyError where
  | runtimeError (msg : String)
  | valueError (msg : String)
deriving Repr, DecidableEq

/-- Fuel-based helper for `int.bit_length`: `bitsAux fuel n` is the number of
binary digits of `n`, provided `n ≤ fuel`. -/
def bitsAux : Nat → Nat → Nat
  | 0, _ => 0
  | fuel + 1, n => if n = 0 then 0 else bitsAux fuel (n / 2) + 1

/-- Number of binary digits of a natural number (`0` has `0` bits). -/
def natBitLength (n : Nat) : Nat := bitsAux n n

/-- Python `int.bit_length()`: the number of bits necessary to represent the
absolute value of the integer (sign excluded); `(0).bit_length() == 0`. -/
def bit_length (e : Int) : Nat := natBitLength e.natAbs

theorem bitsAux_le_iff : ∀ (fuel n k : Nat), n ≤ fuel → (bitsAux fuel n ≤ k ↔ n < 2 ^ k) := by
  intro fuel
  induction fuel with
  | zero =>
    intro n k hn
    have hz : n = 0 := Nat.le_zero.mp hn
    subst hz
    simp only [bitsAux, Nat.zero_le, true_iff]
    exact Nat.two_pow_pos k
  | succ f ih =>
    intro n k hn
    by_cases h0 : n = 0
    · subst h0
      simp only [bitsAux, if_true, Nat.zero_le, true_iff, ite_true, eq_self_iff_true]
      exact Nat.two_pow_pos k
    · have hdiv : n / 2 ≤ f := by omega
      rw [show bitsAux (f + 1) n = bitsAux f (n / 2) + 1 by simp [bitsAux, h0]]
      cases k with
      | zero =>
        simp only [pow_zero]
        omega
      | succ j =>
        rw [Nat.add_le_add_iff_right, ih (n / 2) j hdiv, pow_succ]
        rw [Nat.div_lt_iff_lt_mul (by norm_num : 0 < 2)]

/-- Characterisation of `natBitLength`: it is the least `k` with `n < 2 ^ k`,
matching the documented semantics of Python `int.bit_length`. -/
theorem natBitLength_le_iff (n k : Nat) : natBitLength n ≤ k ↔ n < 2 ^ k :=
  bitsAux_le_iff n n k (Nat.le_refl n)

/-- The struct from `exposureIdInfo.py`: an exposure ID, the number of bits
reserved for it, and an optional total bit budget.  Immutable after
construction (the embedding is a pure value). -/
structure ExposureIdInfo where
  expId : Int
  expBits : Int
  maxBits : Option Int
deriving Repr, DecidableEq

/-- `ExposureIdInfo.__init__`.  After coercing `expId` and `expBits` to `int`
(our arguments are already integers), it raises `RuntimeError` when
`expId.bit_length() > expBits`; then, when `maxBits` is given, it raises
`RuntimeError` when `maxBits < expBits`; otherwise it stores the three fields
verbatim.  (Python interpolates the offending values into the message; the
message text is irrelevant to the claims and kept constant here.) -/
def ExposureIdInfo.init (expId : Int) (expBits : Int) (maxBits : Option Int) :
    Except PyError ExposureIdInfo :=
  if (bit_length expId : Int) > expBits then
    Except.error (PyError.runtimeError "expId uses more bits than expBits")
  else
    match maxBits with
    | none => Except.ok ⟨expId, expBits, none⟩
    | some m =>
      if m < expBits then
        Except.error (PyError.runtimeError "expBits > maxBits")
      else
        Except.ok ⟨expId, expBits, some m⟩

/-- The `unusedBits` property.  When `maxBits` is `None` it delegates to the
external capability `lsst.afw.table.IdFactory.computeReservedFromMaxBits`
(not part of this repository; passed in as an explicit collaborator, so the
result is whatever the collaborator returns); otherwise it returns
`maxBits - expBits`. -/
def ExposureIdInfo.unusedBits (computeReservedFromMaxBits : Int → Except PyError Int)
    (self : ExposureIdInfo) : Except PyError Int :=
  match self.maxBits with
  | none => computeReservedFromMaxBits self.expBits
  | some m => Except.ok (m - self.expBits)

/-- Reading the `unusedBits` property with the object state passed explicitly:
the property body contains no assignment, so the state comes back unchanged
alongside the value. -/
def ExposureIdInfo.readUnusedBits (computeReservedFromMaxBits : Int → Except PyError Int)
    (self : ExposureIdInfo) : Except PyError (Int × ExposureIdInfo) :=
  (ExposureIdInfo.unusedBits computeReservedFromMaxBits self).map (fun v => (v, self))

/-- Start code points of the runs of ten consecutive Unicode decimal digits
(category Nd, Unicode 14.0): each run `lo .. lo + 9` carries the decimal
values `0 .. 9`.  These are exactly the characters Python's `\d` matches in a
`str` pattern (no `re.ASCII` flag in the source) and that `int()` converts. -/
def ndDecades : List Nat := [
  0x30, 0x660, 0x6F0, 0x7C0, 0x966, 0x9E6,
  0xA66, 0xAE6, 0xB66, 0xBE6, 0xC66, 0xCE6,
  0xD66, 0xDE6, 0xE50, 0xED0, 0xF20, 0x1040,
  0x1090, 0x17E0, 0x1810, 0x1946, 0x19D0, 0x1A80,
  0x1A90, 0x1B50, 0x1BB0, 0x1C40, 0x1C50, 0xA620,
  0xA8D0, 0xA900, 0xA9D0, 0xA9F0, 0xAA50, 0xABF0,
  0xFF10, 0x104A0, 0x10D30, 0x11066, 0x110F0, 0x11136,
  0x111D0, 0x112F0, 0x11450, 0x114D0, 0x11650, 0x116C0,
  0x11730, 0x118E0, 0x11950, 0x11C50, 0x11D50, 0x11DA0,
  0x16A60, 0x16AC0, 0x16B50, 0x1D7CE, 0x1D7D8, 0x1D7E2,
  0x1D7EC, 0x1D7F6, 0x1E140, 0x1E2F0, 0x1E950, 0x1FBF0]

/-- A Unicode decimal digit (category Nd): what Python's `\d` matches in the
source's `str` regex, ASCII `0`-`9` included. -/
def isNdDigit (c : Char) : Bool :=
  ndDecades.any (fun lo => lo ≤ c.toNat && c.toNat ≤ lo + 9)

/-- The decimal value of a Unicode decimal digit: its offset in its run of
ten (`0` on a non-digit, which every caller rules out). -/
def ndDigitVal (c : Char) : Nat :=
  match ndDecades.find? (fun lo => lo ≤ c.toNat && c.toNat ≤ lo + 9) with
  | some lo => c.toNat - lo
  | none => 0

/-- A character matched by the regex character class `[-\d]` of
`bboxFromIraf`: a Unicode decimal digit or `-`. -/
def isGroupChar (c : Char) : Bool := isNdDigit c || c == '-'

/-- One step of the anchored regex
`^\[([-\d]+):([-\d]+),([-\d]+):([-\d]+)\]$`: a greedy nonempty run of
`[-\d]` characters followed by the literal separator `sep`.  Because the
separators (`:`, `,`, `]`) are not in the character class, greedy matching is
deterministic: the group is the maximal run and no backtracking can succeed. -/
def splitGroup (sep : Char) (l : List Char) : Option (List Char × List Char) :=
  match l.dropWhile isGroupChar with
  | c :: r =>
    if c = sep ∧ l.takeWhile isGroupChar ≠ [] then some (l.takeWhile isGroupChar, r)
    else none
  | [] => none

/-- `re.search(r"^\[([-\d]+):([-\d]+),([-\d]+):([-\d]+)\]$", s)` from
`bboxFromIraf`, returning the four captured groups.  In Python `$` matches at
the end of the string or just before one final newline, so after the closing
`]` the remainder may be empty or a single `\n`. -/
def irafMatch (s : String) : Option (List Char × List Char × List Char × List Char) :=
  match s.data with
  | [] => none
  | c :: r0 =>
    if c = '[' then
      match splitGroup ':' r0 with
      | some (g1, r1) =>
        match splitGroup ',' r1 with
        | some (g2, r2) =>
          match splitGroup ':' r2 with
          | some (g3, r3) =>
            match splitGroup ']' r3 with
            | some (g4, r4) =>
              if r4 = [] ∨ r4 = ['\n'] then some (g1, g2, g3, g4) else none
            | none => none
          | none => none
        | none => none
      | none => none
    else none

/-- Decimal value of a list of decimal digits, most significant first, each
digit contributing its Unicode decimal value (so mixed scripts combine, as in
Python `int`). -/
def digitsToNat (l : List Char) : Nat :=
  l.foldl (fun a c => 10 * a + ndDigitVal c) 0

/-- Python `int()` restricted to the strings reachable from the regex groups
(characters drawn from `[-\d]`): an optional leading `-` followed by one or
more Unicode decimal digits yields the value; anything else (such as `--5`,
`5-5` or `-`) raises `ValueError`, modelled as `none`.  (Python also accepts
`+`, whitespace and underscores, but those characters cannot occur in a
captured group.) -/
def pyInt (l : List Char) : Option Int :=
  match l with
  | [] => none
  | c :: ds =>
    if c = '-' then
      if ds.isEmpty || !ds.all isNdDigit then none
      else some (-(digitsToNat ds : Int))
    else
      if !(c :: ds).all isNdDigit then none
      else some ((digitsToNat (c :: ds) : Int))

/-- `bboxFromIraf` from `utils.py`.  On a regex match, the four group strings
are converted with `int()` (a malformed literal raises `ValueError`) and the
result is the box `BoxI(PointI(x0 - 1, y0 - 1), PointI(x1 - 1, y1 - 1))`,
modelled as the pair of its two corner points (`BoxI`/`PointI` live in the
external `lsst.afw.geom`); otherwise it raises `RuntimeError`. -/
def bboxFromIraf (s : String) : Except PyError ((Int × Int) × (Int × Int)) :=
  match irafMatch s with
  | none => Except.error (PyError.runtimeError "Unable to parse IRAF-style bbox")
  | some (g1, g2, g3, g4) =>
    match pyInt g1, pyInt g2, pyInt g3, pyInt g4 with
    | some x0, some x1, some y0, some y1 =>
      Except.ok ((x0 - 1, y0 - 1), (x1 - 1, y1 - 1))
    | _, _, _, _ => Except.error (PyError.valueError "invalid literal for int with base 10")

/-- The character list of a string exactly of the IRAF form
`[g1:g2,g3:g4]`. -/
def irafForm (g1 g2 g3 g4 : List Char) : List Char :=
  ('[' :: (g1 ++ [':'] ++ g2 ++ [','] ++ g3 ++ [':'] ++ g4)) ++ [']']

example : bboxFromIraf "[1:2,3:4]" = Except.ok ((0, 2), (1, 3)) := rfl
example : bboxFromIraf "[1:2,3:4]\n" = Except.ok ((0, 2), (1, 3)) := rfl
example : bboxFromIraf "[-5:2,3:4]" = Except.ok ((-6, 2), (1, 3)) := rfl
example : bboxFromIraf "[٥:2,3:4]" = Except.ok ((4, 2), (1, 3)) := rfl
example : pyInt (String.data "١" ++ String.data "2") = some 12 := rfl
example : bboxFromIraf "[--5:2,3:4]" =
    Except.error (PyError.valueError "invalid literal for int with base 10") := rfl
example : bboxFromIraf "[1:2,3:4] " =
    Except.error (PyError.runtimeError "Unable to parse IRAF-style bbox") := rfl
example : bboxFromIraf "1:2,3:4" =
    Except.error (PyError.runtimeError "Unable to parse IRAF-style bbox") := rfl
example : String.data "[1:2,3:4]" = irafForm ['1'] ['2'] ['3'] ['4'] := rfl

example : bit_length 5 = 3 := by decide
example : bit_length 0 = 0 := by decide
example : bit_length (-3) = 2 := by decide
example : ExposureIdInfo.init 5 4 none = Except.ok ⟨5, 4, none⟩ := rfl
example : ExposureIdInfo.init 16 4 none =
    Except.error (PyError.runtimeError "expId uses more bits than expBits") := rfl
example : ExposureIdInfo.init 0 10 (some 5) =
    Except.error (PyError.runtimeError "expBits > maxBits") := rfl

/-- Inversion of a successful construction: the fields are stored verbatim,
the bit-length check passed, and when `maxBits` was given the budget check
passed. -/
theorem init_ok_elim (e b : Int) (mb : Option Int) (info : ExposureIdInfo)
    (h : ExposureIdInfo.init e b mb = Except.ok info) :
    info = ⟨e, b, mb⟩ ∧ (bit_length e : Int) ≤ b ∧ ∀ m, mb = some m → b ≤ m := by
  unfold ExposureIdInfo.init at h
  split at h
  · simp at h
  · rename_i hbl
    have hle : (bit_length e : Int) ≤ b := by omega
    split at h
    · exact ⟨(Except.ok.inj h).symm, hle, fun m hm => by simp at hm⟩
    · rename_i m
      split at h
      · simp at h
      · rename_i hm
        refine ⟨(Except.ok.inj h).symm, hle, fun m' hm' => ?_⟩
        injection hm' with hmm
        omega

/-- C1: whenever the bit-length of `e` exceeds `b`, constructing with
`exposureId = e` and `exposureBits = b` (any `maxBits`) fails with the
generic runtime error (`InvalidArgument`) and no instance is produced. -/
theorem init_fails_of_bitLength_gt (e b : Int) (mb : Option Int)
    (h : (bit_length e : Int) > b) :
    ExposureIdInfo.init e b mb =
      Except.error (PyError.runtimeError "expId uses more bits than expBits") := by
  unfold ExposureIdInfo.init
  rw [if_pos h]

theorem init_fails_of_bitLength_gt_witness :
    ((bit_length 16 : Int) > 4) ∧
    ExposureIdInfo.init 16 4 none =
      Except.error (PyError.runtimeError "expId uses more bits than expBits") :=
  ⟨by decide, init_fails_of_bitLength_gt 16 4 none (by decide)⟩

/-- C2: for non-negative `e` and positive `b` with `bit_length e ≤ b`,
construction with `maxBits` omitted succeeds and stores `expId = e`,
`expBits = b` (and `maxBits = none`) verbatim; the embedding is pure, so
there is no other effect. -/
theorem init_ok_roundtrip (e b : Int) (he : 0 ≤ e) (hb : 0 < b)
    (h : (bit_length e : Int) ≤ b) :
    ExposureIdInfo.init e b none = Except.ok ⟨e, b, none⟩ := by
  unfold ExposureIdInfo.init
  rw [if_neg (by omega)]

theorem init_ok_roundtrip_witness :
    (0 : Int) ≤ 5 ∧ (0 : Int) < 4 ∧ ((bit_length 5 : Int) ≤ 4) ∧
    ExposureIdInfo.init 5 4 none = Except.ok ⟨5, 4, none⟩ :=
  ⟨by decide, by decide, by decide, init_ok_roundtrip 5 4 (by decide) (by decide) (by decide)⟩

/-- C3: whenever `m < b`, construction with `exposureBits = b` and
`maxBits = m` fails with the generic runtime error (`InvalidArgument`),
regardless of `exposureId` (when the bit-length check also fails, that
earlier error is raised instead, but construction still fails). -/
theorem init_fails_of_maxBits_lt (e b m : Int) (h : m < b) :
    ∃ msg, ExposureIdInfo.init e b (some m) = Except.error (PyError.runtimeError msg) := by
  unfold ExposureIdInfo.init
  by_cases hbl : (bit_length e : Int) > b
  · exact ⟨"expId uses more bits than expBits", by rw [if_pos hbl]⟩
  · refine ⟨"expBits > maxBits", ?_⟩
    rw [if_neg hbl]
    simp only [h, if_pos]

theorem init_fails_of_maxBits_lt_witness :
    (5 : Int) < 10 ∧
    ∃ msg, ExposureIdInfo.init 0 10 (some 5) = Except.error (PyError.runtimeError msg) :=
  ⟨by decide, init_fails_of_maxBits_lt 0 10 5 (by decide)⟩

/-- C4: on any instance successfully constructed with `exposureBits = b` and
`maxBits = m` (so `b ≤ m`), `unusedBits` is exactly `m - b`, whatever the
external collaborator is; the witness instantiates the spec example
`(expId = 0, expBits = 2, maxBits = 10)` with `unusedBits = 8`. -/
theorem unusedBits_eq_maxBits_sub (ext : Int → Except PyError Int) (e b m : Int)
    (info : ExposureIdInfo) (hm : b ≤ m)
    (h : ExposureIdInfo.init e b (some m) = Except.ok info) :
    ExposureIdInfo.unusedBits ext info = Except.ok (m - b) := by
  obtain ⟨rfl, -, -⟩ := init_ok_elim e b (some m) info h
  rfl

theorem unusedBits_eq_maxBits_sub_witness :
    (2 : Int) ≤ 10 ∧
    ExposureIdInfo.init 0 2 (some 10) = Except.ok ⟨0, 2, some 10⟩ ∧
    ExposureIdInfo.unusedBits (fun _ => Except.ok 0) ⟨0, 2, some 10⟩ = Except.ok 8 :=
  ⟨by decide, rfl,
    unusedBits_eq_maxBits_sub (fun _ => Except.ok 0) 0 2 10 ⟨0, 2, some 10⟩ (by decide) rfl⟩

/-- C5: on any instance successfully constructed with `maxBits` omitted,
`unusedBits` is exactly the value returned by the external capability
`computeReservedFromMaxBits` applied to the stored `expBits`; the statement
is universally quantified over the collaborator, so the value is never
computed locally. -/
theorem unusedBits_delegates_external (ext : Int → Except PyError Int) (e b : Int)
    (info : ExposureIdInfo)
    (h : ExposureIdInfo.init e b none = Except.ok info) :
    ExposureIdInfo.unusedBits ext info = ext b := by
  obtain ⟨rfl, -, -⟩ := init_ok_elim e b none info h
  rfl

theorem unusedBits_delegates_external_witness :
    ExposureIdInfo.init 7 3 none = Except.ok ⟨7, 3, none⟩ ∧
    ExposureIdInfo.unusedBits (fun n => Except.ok (63 - n)) ⟨7, 3, none⟩ =
      (fun n : Int => (Except.ok (63 - n) : Except PyError Int)) 3 :=
  ⟨rfl, unusedBits_delegates_external (fun n => Except.ok (63 - n)) 7 3 ⟨7, 3, none⟩ rfl⟩

/-- C6: every successful construction with `maxBits` present satisfies
`expBits ≤ maxBits`, so `unusedBits` is a non-negative value (possibly zero);
the embedding is an immutable value, so no operation can break this. -/
theorem maxBits_ge_expBits_invariant (ext : Int → Except PyError Int) (e b : Int)
    (mb : Option Int) (info : ExposureIdInfo) (m : Int)
    (h : ExposureIdInfo.init e b mb = Except.ok info) (hm : info.maxBits = some m) :
    info.expBits ≤ m ∧
    ExposureIdInfo.unusedBits ext info = Except.ok (m - info.expBits) ∧
    0 ≤ m - info.expBits := by
  obtain ⟨rfl, -, hbudget⟩ := init_ok_elim e b mb info h
  have hmb : mb = some m := hm
  have hbm : b ≤ m := hbudget m hmb
  subst hmb
  refine ⟨hbm, rfl, ?_⟩
  show (0 : Int) ≤ m - b
  omega

theorem maxBits_ge_expBits_invariant_witness :
    ExposureIdInfo.init 3 2 (some 2) = Except.ok ⟨3, 2, some 2⟩ ∧
    ((⟨3, 2, some 2⟩ : ExposureIdInfo).expBits ≤ 2 ∧
      ExposureIdInfo.unusedBits (fun _ => Except.ok 0) ⟨3, 2, some 2⟩ =
        Except.ok (2 - (⟨3, 2, some 2⟩ : ExposureIdInfo).expBits) ∧
      0 ≤ 2 - (⟨3, 2, some 2⟩ : ExposureIdInfo).expBits) :=
  ⟨rfl, maxBits_ge_expBits_invariant (fun _ => Except.ok 0) 3 2 (some 2) ⟨3, 2, some 2⟩ 2 rfl rfl⟩

/-- C7: the constructor does not enforce `expBits ≥ 1`: constructing with
`exposureId = 0` and `exposureBits = 0` succeeds, because `0` has
bit-length `0`. -/
theorem init_allows_zero_expBits :
    ExposureIdInfo.init 0 0 none = Except.ok ⟨0, 0, none⟩ := rfl

/-- C8: on any instance successfully constructed with `maxBits = m`, reading
the `unusedBits` property never raises: with the state passed explicitly it
returns `Except.ok` with the value `m - expBits` and the object unchanged,
whatever the external collaborator is. -/
theorem readUnusedBits_pure (ext : Int → Except PyError Int) (e b m : Int)
    (info : ExposureIdInfo)
    (h : ExposureIdInfo.init e b (some m) = Except.ok info) :
    ExposureIdInfo.readUnusedBits ext info = Except.ok (m - b, info) := by
  obtain ⟨rfl, -, -⟩ := init_ok_elim e b (some m) info h
  rfl

theorem readUnusedBits_pure_witness :
    ExposureIdInfo.init 1 1 (some 4) = Except.ok ⟨1, 1, some 4⟩ ∧
    ExposureIdInfo.readUnusedBits (fun _ => Except.ok 0) ⟨1, 1, some 4⟩ =
      Except.ok (3, ⟨1, 1, some 4⟩) :=
  ⟨rfl, readUnusedBits_pure (fun _ => Except.ok 0) 1 1 4 ⟨1, 1, some 4⟩ rfl⟩

/-- C9: the constructor does not require `expId ≥ 0`: for negative `e` whose
absolute value fits in `b` bits (Python `bit_length` ignores the sign),
construction succeeds and the negative value is stored verbatim. -/
theorem init_accepts_negative (e b : Int) (he : e < 0)
    (h : (bit_length e : Int) ≤ b) :
    ExposureIdInfo.init e b none = Except.ok ⟨e, b, none⟩ := by
  unfold ExposureIdInfo.init
  rw [if_neg (by omega)]

theorem init_accepts_negative_witness :
    (-3 : Int) < 0 ∧ ((bit_length (-3) : Int) ≤ 2) ∧
    ExposureIdInfo.init (-3) 2 none = Except.ok ⟨-3, 2, none⟩ :=
  ⟨by decide, by decide, init_accepts_negative (-3) 2 (by decide) (by decide)⟩

theorem takeWhile_group_append (p : Char → Bool) (g : List Char) (c : Char) (r : List Char)
    (hg : ∀ x ∈ g, p x) (hc : p c = false) :
    (g ++ c :: r).takeWhile p = g ∧ (g ++ c :: r).dropWhile p = c :: r := by
  induction g with
  | nil => simp [List.takeWhile_cons, List.dropWhile_cons, hc]
  | cons a g ih =>
    have ha : p a := hg a (by simp)
    have hrec := ih (fun x hx => hg x (by simp [hx]))
    simp [List.takeWhile_cons, List.dropWhile_cons, ha, hrec.1, hrec.2]

/-- Inversion of one regex step: a successful `splitGroup` decomposes the
input into a nonempty group of class characters, the separator, and the
rest. -/
theorem splitGroup_eq_some (sep : Char) (l g r : List Char)
    (h : splitGroup sep l = some (g, r)) :
    l = g ++ sep :: r ∧ g ≠ [] ∧ ∀ c ∈ g, isGroupChar c := by
  unfold splitGroup at h
  split at h
  · rename_i c rest heq
    split at h
    · rename_i hcond
      obtain ⟨hsep, hne⟩ := hcond
      simp only [Option.some.injEq, Prod.mk.injEq] at h
      obtain ⟨hg, hr⟩ := h
      subst hg
      subst hr
      refine ⟨?_, hne, fun c hc => List.mem_takeWhile_imp hc⟩
      have hsplit := List.takeWhile_append_dropWhile (p := isGroupChar) (l := l)
      rw [heq, hsep] at hsplit
      exact hsplit.symm
    · simp at h
  · simp at h

/-- Forward direction of one regex step: a nonempty run of class characters
followed by a separator that is not in the class splits exactly there. -/
theorem splitGroup_append (sep : Char) (g : List Char) (hg : g ≠ [])
    (hall : ∀ c ∈ g, isGroupChar c) (hsep : isGroupChar sep = false) :
    ∀ r, splitGroup sep (g ++ sep :: r) = some (g, r) := by
  intro r
  obtain ⟨htake, hdrop⟩ := takeWhile_group_append isGroupChar g sep r hall hsep
  unfold splitGroup
  rw [hdrop]
  dsimp only
  rw [htake, if_pos ⟨rfl, hg⟩]

/-- A list accepted by `pyInt` is a nonempty run of `[-\d]` characters. -/
theorem pyInt_group (g : List Char) (v : Int) (h : pyInt g = some v) :
    g ≠ [] ∧ ∀ c ∈ g, isGroupChar c := by
  unfold pyInt at h
  split at h
  · simp at h
  · rename_i c ds
    refine ⟨by simp, ?_⟩
    split at h
    · rename_i hc
      subst hc
      split at h
      · simp at h
      · rename_i hds
        simp only [Bool.or_eq_true, Bool.not_eq_true', not_or, Bool.not_eq_false] at hds
        intro x hx
        rcases List.mem_cons.mp hx with hx | hx
        · subst hx
          decide
        · have : isNdDigit x := List.all_eq_true.mp hds.2 x hx
          simp [isGroupChar, this]
    · split at h
      · simp at h
      · rename_i hds
        simp only [Bool.not_eq_true', Bool.not_eq_false] at hds
        intro x hx
        have : isNdDigit x := List.all_eq_true.mp hds x hx
        simp [isGroupChar, this]

/-- The regex accepts a string of the IRAF form, optionally followed by one
newline (Python `$`), and captures exactly the four groups. -/
theorem irafMatch_form (g1 g2 g3 g4 tail : List Char)
    (h1 : g1 ≠ []) (h1a : ∀ c ∈ g1, isGroupChar c)
    (h2 : g2 ≠ []) (h2a : ∀ c ∈ g2, isGroupChar c)
    (h3 : g3 ≠ []) (h3a : ∀ c ∈ g3, isGroupChar c)
    (h4 : g4 ≠ []) (h4a : ∀ c ∈ g4, isGroupChar c)
    (htail : tail = [] ∨ tail = ['\n']) :
    irafMatch (String.mk (irafForm g1 g2 g3 g4 ++ tail)) = some (g1, g2, g3, g4) := by
  have e0 : (String.mk (irafForm g1 g2 g3 g4 ++ tail)).data
      = '[' :: (g1 ++ ':' :: (g2 ++ ',' :: (g3 ++ ':' :: (g4 ++ ']' :: tail)))) := by
    show irafForm g1 g2 g3 g4 ++ tail = _
    simp [irafForm, List.append_assoc]
  unfold irafMatch
  rw [e0]
  dsimp only
  rw [if_pos rfl]
  rw [splitGroup_append ':' g1 h1 h1a (by decide)]
  dsimp only
  rw [splitGroup_append ',' g2 h2 h2a (by decide)]
  dsimp only
  rw [splitGroup_append ':' g3 h3 h3a (by decide)]
  dsimp only
  rw [splitGroup_append ']' g4 h4 h4a (by decide)]
  dsimp only
  rw [if_pos htail]

/-- Inversion of the regex: a successful match means the string was exactly
of the IRAF form, possibly followed by one newline, with the four captured
groups as its pieces. -/
theorem irafMatch_eq_some (s : String) (g1 g2 g3 g4 : List Char)
    (h : irafMatch s = some (g1, g2, g3, g4)) :
    (s.data = irafForm g1 g2 g3 g4 ∨ s.data = irafForm g1 g2 g3 g4 ++ ['\n']) ∧
    (g1 ≠ [] ∧ ∀ c ∈ g1, isGroupChar c) ∧ (g2 ≠ [] ∧ ∀ c ∈ g2, isGroupChar c) ∧
    (g3 ≠ [] ∧ ∀ c ∈ g3, isGroupChar c) ∧ (g4 ≠ [] ∧ ∀ c ∈ g4, isGroupChar c) := by
  unfold irafMatch at h
  split at h
  · simp at h
  · rename_i c r0 heq0
    split at h
    · rename_i hc
      subst hc
      split at h
      · rename_i a1 b1 heq1
        split at h
        · rename_i a2 b2 heq2
          split at h
          · rename_i a3 b3 heq3
            split at h
            · rename_i a4 b4 heq4
              split at h
              · rename_i hcond
                simp only [Option.some.injEq, Prod.mk.injEq] at h
                obtain ⟨e1, e2, e3, e4⟩ := h
                subst e1
                subst e2
                subst e3
                subst e4
                obtain ⟨hr0, hne1, hall1⟩ := splitGroup_eq_some ':' r0 a1 b1 heq1
                obtain ⟨hr1, hne2, hall2⟩ := splitGroup_eq_some ',' b1 a2 b2 heq2
                obtain ⟨hr2, hne3, hall3⟩ := splitGroup_eq_some ':' b2 a3 b3 heq3
                obtain ⟨hr3, hne4, hall4⟩ := splitGroup_eq_some ']' b3 a4 b4 heq4
                refine ⟨?_, ⟨hne1, hall1⟩, ⟨hne2, hall2⟩, ⟨hne3, hall3⟩, ⟨hne4, hall4⟩⟩
                rcases hcond with rfl | rfl
                · refine Or.inl ?_
                  rw [heq0, hr0, hr1, hr2, hr3]
                  simp [irafForm, List.append_assoc]
                · refine Or.inr ?_
                  rw [heq0, hr0, hr1, hr2, hr3]
                  simp [irafForm, List.append_assoc]
              · simp at h
            · simp at h
          · simp at h
        · simp at h
      · simp at h
    · simp at h

/-- C10 counterexample: Python `$` also matches just before one final
newline, so `bboxFromIraf` succeeds on `"[1:2,3:4]\n"`, a string that is not
exactly of the form `[x0:x1,y0:y1]` (any string of that form ends in `]`,
this one ends in a newline); the claim that every string not of that form
raises an error is therefore false. -/
theorem bboxFromIraf_trailing_newline_accepted :
    bboxFromIraf "[1:2,3:4]\n" = Except.ok ((0, 2), (1, 3)) ∧
    ∀ g1 g2 g3 g4 : List Char, ("[1:2,3:4]\n").data ≠ irafForm g1 g2 g3 g4 := by
  refine ⟨rfl, ?_⟩
  intro g1 g2 g3 g4 h
  have hlast : (irafForm g1 g2 g3 g4).getLast? = some ']' := by
    unfold irafForm
    exact List.getLast?_concat _
  have hl : ("[1:2,3:4]\n").data.getLast? = some '\n' := rfl
  rw [h, hlast] at hl
  simp at hl

/-- C10, amended to account for the final-newline behaviour of `$`: for all
strings exactly of the form `[x0:x1,y0:y1]` with the four pieces integer
literals over digits and `-` (an optional single trailing newline being also
accepted), `bboxFromIraf` returns the box with corners
`(x0 - 1, y0 - 1)` and `(x1 - 1, y1 - 1)`; and conversely any successful
result arises exactly this way, so every other string raises an error
(`bboxFromIraf` otherwise returns `Except.error`). -/
theorem bboxFromIraf_iraf_form :
    (∀ g1 g2 g3 g4 : List Char, ∀ x0 x1 y0 y1 : Int,
      pyInt g1 = some x0 → pyInt g2 = some x1 → pyInt g3 = some y0 → pyInt g4 = some y1 →
      bboxFromIraf (String.mk (irafForm g1 g2 g3 g4)) =
          Except.ok ((x0 - 1, y0 - 1), (x1 - 1, y1 - 1)) ∧
        bboxFromIraf (String.mk (irafForm g1 g2 g3 g4 ++ ['\n'])) =
          Except.ok ((x0 - 1, y0 - 1), (x1 - 1, y1 - 1))) ∧
    (∀ (s : String) (r : (Int × Int) × (Int × Int)), bboxFromIraf s = Except.ok r →
      ∃ g1 g2 g3 g4 x0 x1 y0 y1,
        (s.data = irafForm g1 g2 g3 g4 ∨ s.data = irafForm g1 g2 g3 g4 ++ ['\n']) ∧
        pyInt g1 = some x0 ∧ pyInt g2 = some x1 ∧ pyInt g3 = some y0 ∧ pyInt g4 = some y1 ∧
        r = ((x0 - 1, y0 - 1), (x1 - 1, y1 - 1))) := by
  constructor
  · intro g1 g2 g3 g4 x0 x1 y0 y1 hx0 hx1 hy0 hy1
    obtain ⟨hne1, hall1⟩ := pyInt_group g1 x0 hx0
    obtain ⟨hne2, hall2⟩ := pyInt_group g2 x1 hx1
    obtain ⟨hne3, hall3⟩ := pyInt_group g3 y0 hy0
    obtain ⟨hne4, hall4⟩ := pyInt_group g4 y1 hy1
    have hm0 := irafMatch_form g1 g2 g3 g4 [] hne1 hall1 hne2 hall2 hne3 hall3 hne4 hall4
      (Or.inl rfl)
    have hm1 := irafMatch_form g1 g2 g3 g4 ['\n'] hne1 hall1 hne2 hall2 hne3 hall3 hne4 hall4
      (Or.inr rfl)
    rw [List.append_nil] at hm0
    constructor
    · unfold bboxFromIraf
      rw [hm0]
      dsimp only
      rw [hx0, hx1, hy0, hy1]
    · unfold bboxFromIraf
      rw [hm1]
      dsimp only
      rw [hx0, hx1, hy0, hy1]
  · intro s r h
    unfold bboxFromIraf at h
    split at h
    · simp at h
    · rename_i g1 g2 g3 g4 heq
      split at h
      · rename_i x0 x1 y0 y1 hx0 hx1 hy0 hy1
        obtain ⟨hform, -, -, -, -⟩ := irafMatch_eq_some s g1 g2 g3 g4 heq
        exact ⟨g1, g2, g3, g4, x0, x1, y0, y1, hform, hx0, hx1, hy0, hy1,
          (Except.ok.inj h).symm⟩
      · simp at h

theorem bboxFromIraf_iraf_form_witness :
    pyInt (String.data "1") = some 1 ∧ pyInt (String.data "2") = some 2 ∧
    pyInt (String.data "3") = some 3 ∧ pyInt (String.data "4") = some 4 ∧
    bboxFromIraf (String.mk (irafForm (String.data "1") (String.data "2")
      (String.data "3") (String.data "4"))) = Except.ok ((0, 2), (1, 3)) :=
  ⟨rfl, rfl, rfl, rfl,
    (bboxFromIraf_iraf_form.1 (String.data "1") (String.data "2") (String.data "3")
      (String.data "4") 1 2 3 4 rfl rfl rfl rfl).1⟩
